import Mathlib

/-!
Verification of the Day5 job-control mini-shell
(`src/Day5_JobControl/mini-shell.cpp`) against its natural-language
specification.  Every definition below is a shallow embedding of the
corresponding C++ function, keeping the source's names and branch
structure.  External effects (chdir, waitpid outcomes, getpgid results)
are passed in as explicit parameters; stdout/stderr become lists of
emitted lines/diagnostics.
-/

namespace MiniShell

/-- C `isspace` on the default locale: space, \t, \n, \v, \f, \r. -/
def isCSpace (c : Char) : Bool :=
  c == ' ' || c == '\t' || c == '\n' || c == '\x0b' || c == '\x0c' || c == '\r'

/-- Push `cur` as a finished token when it is non-empty
(the `if (!cur.empty()) tokens.push_back(cur)` idiom in `tokenize`). -/
def flush (cur : List Char) (toks : List (List Char)) : List (List Char) :=
  if cur = [] then toks else toks ++ [cur]

/-- Loop body of `tokenize` (mini-shell.cpp lines 46-73): single pass over the
characters, toggling single/double-quote state, splitting on unquoted
whitespace, emitting `|` `<` `>` `>>` `&` as their own tokens outside quotes,
and accumulating every other character into the current word.  The two-char
lookahead for `>>` is rendered as a nested match on the remaining characters. -/
def tokenizeAux : List Char → Bool → Bool → List Char → List (List Char) →
    List (List Char)
  | [], _, _, cur, toks => flush cur toks
  | '>' :: '>' :: rest2, sq, dq, cur, toks =>
    if ¬sq ∧ ¬dq then tokenizeAux rest2 sq dq [] (flush cur toks ++ [['>', '>']])
    else tokenizeAux ('>' :: rest2) sq dq (cur ++ ['>']) toks
  | c :: rest, sq, dq, cur, toks =>
    if isCSpace c ∧ ¬sq ∧ ¬dq then
      tokenizeAux rest sq dq [] (flush cur toks)
    else if c = '\'' ∧ ¬dq then
      tokenizeAux rest (¬sq) dq cur toks
    else if c = '"' ∧ ¬sq then
      tokenizeAux rest sq (¬dq) cur toks
    else if (c = '|' ∨ c = '>' ∨ c = '<' ∨ c = '&') ∧ ¬sq ∧ ¬dq then
      tokenizeAux rest sq dq [] (flush cur toks ++ [[c]])
    else
      tokenizeAux rest sq dq (cur ++ [c]) toks

/-- `tokenize` (mini-shell.cpp lines 46-73): quote-aware splitting of a line
into tokens.  Note the C++ function returns `vector<string>` and has no error
path at all. -/
def tokenize (line : String) : List String :=
  (tokenizeAux line.toList false false [] []).map String.mk

/-- Quote-state scan of a character list: the `(in_squote, in_dquote)` pair
after the tokenizer has consumed the characters.  Only the first three
branches of `tokenizeAux` change this state; operator and ordinary characters
leave it untouched. -/
def scanQ (cs : List Char) (sq dq : Bool) : Bool × Bool :=
  match cs with
  | [] => (sq, dq)
  | c :: rest =>
    if isCSpace c ∧ ¬sq ∧ ¬dq then scanQ rest sq dq
    else if c = '\'' ∧ ¬dq then scanQ rest (¬sq) dq
    else if c = '"' ∧ ¬sq then scanQ rest sq (¬dq)
    else scanQ rest sq dq

/-- `struct Command` (mini-shell.cpp lines 76-81). -/
structure Command where
  argv : List String
  infile : String
  outfile : String
  append : Bool
deriving DecidableEq, Repr

/-- A freshly default-constructed `Command()`. -/
def Command.empty : Command := ⟨[], "", "", false⟩

/-- Loop of `parse_pipeline` (mini-shell.cpp lines 90-115).  The original
iterates an index `i` over `tokens`; here the unconsumed suffix is the list
argument, so `i == tokens.size()-1` becomes `rest = []` and `tokens[i+1]`
becomes the head of `rest`. -/
def parsePL : List String → Command → List Command → Bool →
    Option (List Command × Bool)
  | [], cmd, pl, background =>
    let pl' := if cmd.argv ≠ [] ∨ cmd.infile ≠ "" ∨ cmd.outfile ≠ "" then pl ++ [cmd] else pl
    if pl' = [] then none else some (pl', background)
  | "|" :: rest, cmd, pl, background =>
    if cmd.argv = [] then none
    else parsePL rest Command.empty (pl ++ [cmd]) background
  | "<" :: f :: rest2, cmd, pl, background =>
    parsePL rest2 { cmd with infile := f } pl background
  | ["<"], _, _, _ => none
  | ">" :: f :: rest2, cmd, pl, background =>
    parsePL rest2 { cmd with outfile := f, append := false } pl background
  | [">"], _, _, _ => none
  | ">>" :: f :: rest2, cmd, pl, background =>
    parsePL rest2 { cmd with outfile := f, append := true } pl background
  | [">>"], _, _, _ => none
  | ["&"], cmd, pl, _ =>
    parsePL [] cmd pl true
  | t :: rest, cmd, pl, background =>
    parsePL rest { cmd with argv := cmd.argv ++ [t] } pl background

/-- `parse_pipeline` (mini-shell.cpp lines 84-116): `none` models returning
`false` (the REPL prints `Parse error` in that case), `some (pipeline, bg)`
models returning `true` with the out-parameters filled in. -/
def parse_pipeline (tokens : List String) : Option (List Command × Bool) :=
  if tokens = [] then none else parsePL tokens Command.empty [] false

/-- `enum JobState` (mini-shell.cpp line 17). -/
inductive JobState where
  | RUNNING
  | STOPPED
  | DONE
deriving DecidableEq, Repr

/-- `struct Job` (mini-shell.cpp lines 19-24). -/
structure Job where
  id : Int
  pgid : Int
  command_line : String
  state : JobState
deriving DecidableEq, Repr

/-- The globals `jobs` and `next_job_id` (mini-shell.cpp lines 26-27). -/
structure ShellSt where
  jobs : List Job
  next_job_id : Int
deriving DecidableEq, Repr

/-- `add_job` (mini-shell.cpp lines 274-281): append a job carrying the
post-incremented `next_job_id`. -/
def add_job (s : ShellSt) (pgid : Int) (cmd : String) (st : JobState) : ShellSt :=
  { jobs := s.jobs ++ [⟨s.next_job_id, pgid, cmd, st⟩]
    next_job_id := s.next_job_id + 1 }

/-- `find_job_index_by_pgid` (mini-shell.cpp lines 283-286); `none` models -1. -/
def find_job_index_by_pgid (js : List Job) (pgid : Int) : Option Nat :=
  js.findIdx? (fun j => j.pgid == pgid)

/-- `find_job_index_by_id` (mini-shell.cpp lines 287-290); `none` models -1. -/
def find_job_index_by_id (js : List Job) (id : Int) : Option Nat :=
  js.findIdx? (fun j => j.id == id)

/-- `remove_done_jobs` (mini-shell.cpp lines 292-301): keep the non-DONE jobs
in order. -/
def remove_done_jobs (js : List Job) : List Job :=
  js.filter (fun j => ¬ j.state = .DONE)

/-- State string used by `print_jobs`. -/
def stateName : JobState → String
  | .RUNNING => "Running"
  | .STOPPED => "Stopped"
  | .DONE => "Done"

/-- `print_jobs` (mini-shell.cpp lines 303-308): the stdout lines, in table
order. -/
def print_jobs (js : List Job) : List String :=
  js.map (fun j => "[" ++ toString j.id ++ "] " ++ stateName j.state ++ "\t" ++ j.command_line)

/-- `jobs[idx].state = st` on a vector index: out-of-range indices leave the
table unchanged (the callers guard `idx` the same way). -/
def setJobStateAt : List Job → Nat → JobState → List Job
  | [], _, _ => []
  | j :: r, 0, st => { j with state := st } :: r
  | j :: r, n + 1, st => j :: setJobStateAt r n st

/-- `put_job_in_foreground` (mini-shell.cpp lines 310-334).  The terminal
hand-over, SIGCONT and the `waitpid` loop are external; `fgw` is the loop's
outcome: `none` when `waitpid` returned no child (`pid <= 0`), `some true`
when the reported status was `WIFSTOPPED`, `some false` when it was an exit
or a signal death.  Returns the new table and the stdout lines printed. -/
def put_job_in_foreground (js : List Job) (idx : Nat) (fgw : Option Bool) :
    List Job × List String :=
  match js.get? idx with
  | none => (js, [])
  | some j =>
    match fgw with
    | none => (js, [])
    | some true =>
      (setJobStateAt js idx .STOPPED,
       ["\n[" ++ toString j.id ++ "] Stopped\t" ++ j.command_line])
    | some false => (setJobStateAt js idx .DONE, [])

/-- `put_job_in_background` (mini-shell.cpp lines 336-344): SIGCONT is
external; the job is marked Running and announced. -/
def put_job_in_background (js : List Job) (idx : Nat) : List Job × List String :=
  match js.get? idx with
  | none => (js, [])
  | some j =>
    (setJobStateAt js idx .RUNNING,
     ["[" ++ toString j.id ++ "] " ++ toString j.pgid ++ " " ++ j.command_line])

/-- Outcome of C++ `std::stoi`: it throws `std::invalid_argument` when no
digits can be consumed and `std::out_of_range` when the value does not fit
in `int`. -/
inductive StoiErr where
  | invalid_argument
  | out_of_range
deriving DecidableEq, Repr

deriving instance DecidableEq for Except

/-- Leading C-whitespace skip performed by `strtol` inside `stoi`. -/
def dropCSpace : List Char → List Char
  | [] => []
  | c :: r => if isCSpace c then dropCSpace r else c :: r

/-- `std::stoi` in base 10: skip whitespace, consume an optional sign and a
non-empty digit run, and range-check against 32-bit `int`.  `Except.error`
models the thrown exception. -/
def stoi (s : String) : Except StoiErr Int :=
  let cs := dropCSpace s.toList
  let sgn : Int × List Char :=
    match cs with
    | '+' :: r => (1, r)
    | '-' :: r => (-1, r)
    | _ => (1, cs)
  let ds := sgn.2.takeWhile (fun c => c.isDigit)
  if ds = [] then .error .invalid_argument
  else
    let v : Int := sgn.1 * ((ds.foldl (fun a c => a * 10 + (c.toNat - '0'.toNat)) 0 : Nat) : Int)
    if v < -(2 ^ 31) ∨ 2 ^ 31 - 1 < v then .error .out_of_range else .ok v

/-- How a call to `handle_builtin` ends: an ordinary `return b`, a call to
`exit(code)`, or an uncaught C++ exception (which terminates the process). -/
inductive HBResult where
  | ret (b : Bool)
  | exited (code : Int)
  | crashed (e : StoiErr)
deriving DecidableEq, Repr

/-- Stderr diagnostics emitted by `handle_builtin`. -/
inductive Diag where
  | perrorCd
  | usage (cmd : String)
  | noSuchJob (cmd : String)
deriving DecidableEq, Repr

/-- Observable effects of one `handle_builtin` call: the job table afterwards,
stdout lines, stderr diagnostics, the argument passed to `chdir` if it was
called (`some none` = the null pointer), and how the call ended. -/
structure BuiltinCall where
  jobs : List Job
  out : List String
  errs : List Diag
  chdirArg : Option (Option String)
  res : HBResult
deriving DecidableEq, Repr

/-- `handle_builtin` (mini-shell.cpp lines 132-164).  `home` is `getenv("HOME")`
(`none` = unset, so `cd` receives a null pointer), `chdirOk` is whether the
`chdir` syscall would succeed on a non-null path (a null path always fails
with EFAULT), `fgw` parameterises the foreground `waitpid` outcome. -/
def handle_builtin (argv : List String) (home : Option String) (chdirOk : Bool)
    (fgw : Option Bool) (js : List Job) : BuiltinCall :=
  match argv with
  | [] => ⟨js, [], [], none, .ret false⟩
  | cmd :: _ =>
    if cmd = "cd" then
      let path : Option String := if 2 ≤ argv.length then some (argv.getD 1 "") else home
      ⟨js, [], if chdirOk && path.isSome then [] else [.perrorCd], some path, .ret true⟩
    else if cmd = "exit" then
      ⟨js, [], [], none, .exited 0⟩
    else if cmd = "jobs" then
      let js' := remove_done_jobs js
      ⟨js', print_jobs js', [], none, .ret true⟩
    else if cmd = "fg" ∨ cmd = "bg" then
      if argv.length < 2 then
        ⟨js, [], [.usage cmd], none, .ret true⟩
      else
        let s := argv.getD 1 ""
        let s2 := match s.toList with
          | '%' :: r => String.mk r
          | _ => s
        match stoi s2 with
        | .error e => ⟨js, [], [], none, .crashed e⟩
        | .ok id =>
          match find_job_index_by_id js id with
          | none => ⟨js, [], [.noSuchJob cmd], none, .ret true⟩
          | some idx =>
            if cmd = "fg" then
              let r := put_job_in_foreground js idx fgw
              ⟨r.1, r.2, [], none, .ret true⟩
            else
              let r := put_job_in_background js idx
              ⟨r.1, r.2, [], none, .ret true⟩
    else ⟨js, [], [], none, .ret false⟩

/-- Whether `main` (mini-shell.cpp lines 444-455) handles a parsed pipeline
in the shell process or falls through to `launch_pipeline` (which forks). -/
inductive Dispatch where
  | inShell
  | forkPath
deriving DecidableEq, Repr

/-- The dispatch decision of `main` (mini-shell.cpp lines 444-452): builtins
are consulted only for a single-command pipeline with no input and no output
redirection; in every other case `launch_pipeline` runs and forks. -/
def mainDispatch (pipeline : List Command) (home : Option String) (chdirOk : Bool)
    (fgw : Option Bool) (js : List Job) : Dispatch :=
  match pipeline with
  | [c] =>
    if ¬ c.infile = "" ∨ ¬ c.outfile = "" then .forkPath
    else if (handle_builtin c.argv home chdirOk fgw js).res = .ret false then .forkPath
    else .inShell
  | _ => .forkPath

/-- The Done line printed by the REPL drain (mini-shell.cpp line 415). -/
def doneLine (j : Job) : String :=
  "[" ++ toString j.id ++ "] Done\t" ++ j.command_line

/-- The per-iteration drain at the top of the REPL loop (mini-shell.cpp lines
412-418): print one Done line per DONE job in table order, then
`remove_done_jobs`. -/
def replDrain (js : List Job) : List Job × List String :=
  (remove_done_jobs js, (js.filter (fun j => j.state = .DONE)).map doneLine)

/-- Classification `sigchld_handler` makes of a `waitpid` status. -/
inductive WaitStatus where
  | wstopped
  | wcontinued
  | wexited
  | wsignaled
deriving DecidableEq, Repr

/-- One child reaped by the handler's `waitpid` loop: the process-group id
`getpgid(pid)` reported for it, and its status classification. -/
structure ChildEvent where
  pgid : Int
  status : WaitStatus
deriving DecidableEq, Repr

/-- One iteration of the `sigchld_handler` loop (mini-shell.cpp lines 351-367):
look the job up by pgid and overwrite its state per the status macros. -/
def sigchldEvent (js : List Job) (e : ChildEvent) : List Job :=
  match find_job_index_by_pgid js e.pgid with
  | none => js
  | some idx =>
    match e.status with
    | .wstopped => setJobStateAt js idx .STOPPED
    | .wcontinued => setJobStateAt js idx .RUNNING
    | .wexited => setJobStateAt js idx .DONE
    | .wsignaled => setJobStateAt js idx .DONE

/-- `sigchld_handler` (mini-shell.cpp lines 348-369): saves `errno`, reaps in
a `waitpid(WNOHANG | WUNTRACED | WCONTINUED)` loop updating job states, and
restores `errno`.  `events` is the sequence of children the loop reaps;
the returned `Int` is `errno` after the handler returns. -/
def sigchld_handler (s : ShellSt) (events : List ChildEvent) (errno : Int) :
    ShellSt × Int :=
  ({ s with jobs := events.foldl sigchldEvent s.jobs }, errno)

/-- The parts of a `Job` the SIGCHLD handler never writes: everything except
`state`. -/
def jobSkel (j : Job) : Int × Int × String := (j.id, j.pgid, j.command_line)

/-- The job-table states reachable in a shell session.  The table starts
empty with `next_job_id = 1` (mini-shell.cpp lines 26-27), and every mutation
of the table in the source is one of: `add_job` (called from
`launch_pipeline`), `remove_done_jobs` (REPL drain and the `jobs` built-in),
or an in-place `jobs[idx].state = st` overwrite (`sigchld_handler`,
`put_job_in_foreground`, `put_job_in_background`). -/
inductive Reach : ShellSt → Prop where
  | init : Reach ⟨[], 1⟩
  | addJob (s : ShellSt) (pgid : Int) (cmd : String) (st : JobState) :
      Reach s → Reach (add_job s pgid cmd st)
  | removeDone (s : ShellSt) : Reach s → Reach ⟨remove_done_jobs s.jobs, s.next_job_id⟩
  | setState (s : ShellSt) (i : Nat) (st : JobState) :
      Reach s → Reach ⟨setJobStateAt s.jobs i st, s.next_job_id⟩

lemma skel_setJobStateAt (js : List Job) (i : Nat) (st : JobState) :
    (setJobStateAt js i st).map jobSkel = js.map jobSkel := by
  induction js generalizing i with
  | nil => rfl
  | cons j r ih =>
    cases i with
    | zero => simp [setJobStateAt, jobSkel]
    | succ n => simp [setJobStateAt, ih]

lemma skel_sigchldEvent (js : List Job) (e : ChildEvent) :
    (sigchldEvent js e).map jobSkel = js.map jobSkel := by
  unfold sigchldEvent
  rcases find_job_index_by_pgid js e.pgid with _ | idx
  · rfl
  · cases e.status <;> simp [skel_setJobStateAt]

lemma skel_sigchld_foldl (events : List ChildEvent) (js : List Job) :
    (events.foldl sigchldEvent js).map jobSkel = js.map jobSkel := by
  induction events generalizing js with
  | nil => rfl
  | cons e rest ih => simpa [List.foldl_cons, skel_sigchldEvent] using ih (sigchldEvent js e)

lemma ids_setJobStateAt (js : List Job) (i : Nat) (st : JobState) :
    (setJobStateAt js i st).map Job.id = js.map Job.id := by
  induction js generalizing i with
  | nil => rfl
  | cons j r ih =>
    cases i with
    | zero => simp [setJobStateAt]
    | succ n => simp [setJobStateAt, ih]

lemma scanQ_cons (c : Char) (rest : List Char) (sq dq : Bool) :
    scanQ (c :: rest) sq dq =
      if isCSpace c = true ∧ ¬sq = true ∧ ¬dq = true then scanQ rest sq dq
      else if c = '\'' ∧ ¬dq = true then scanQ rest (decide ¬sq = true) dq
      else if c = '"' ∧ ¬sq = true then scanQ rest sq (decide ¬dq = true)
      else scanQ rest sq dq := rfl

lemma scanQ_cons_other (c : Char) (rest : List Char) (sq dq : Bool)
    (hsp : isCSpace c = false) (h1 : c ≠ '\'') (h2 : c ≠ '"') :
    scanQ (c :: rest) sq dq = scanQ rest sq dq := by
  rw [scanQ_cons, if_neg (by simp [hsp]), if_neg (by simp [h1]), if_neg (by simp [h2])]

lemma tokenizeAux_one_quote (sq : Bool) (cur : List Char) (toks : List (List Char)) :
    tokenizeAux ['\''] sq false cur toks = flush cur toks := by
  rw [tokenizeAux.eq_3 _ _ _ _ _ _ (by intro rest2 hc _; exact absurd hc (by decide))]
  rw [if_neg (by simp [isCSpace]), if_pos (by simp)]
  exact tokenizeAux.eq_1 _ _ _ _

/-- Appending a single quote to a line whose scan ends outside a double-quoted
region never changes the tokenizer's output: the quote only toggles the
single-quote state and emits nothing.  This is the precise sense in which an
unmatched single quote is silently accepted. -/
lemma tokenizeAux_append_squote :
    ∀ (n : Nat) (cs : List Char), cs.length ≤ n → ∀ (sq dq : Bool) (cur : List Char)
      (toks : List (List Char)), (scanQ cs sq dq).2 = false →
      tokenizeAux (cs ++ ['\'']) sq dq cur toks = tokenizeAux cs sq dq cur toks := by
  intro n
  induction n with
  | zero =>
    intro cs hlen sq dq cur toks hq
    have hcs : cs = [] := List.eq_nil_of_length_eq_zero (Nat.le_zero.mp hlen)
    subst hcs
    simp [scanQ] at hq
    subst hq
    simpa [tokenizeAux] using tokenizeAux_one_quote sq cur toks
  | succ n ih =>
    intro cs hlen sq dq cur toks hq
    rcases cs with _ | ⟨c, rest⟩
    · simp [scanQ] at hq
      subst hq
      simpa [tokenizeAux] using tokenizeAux_one_quote sq cur toks
    · by_cases hgt : c = '>' ∧ ∃ rest2, rest = '>' :: rest2
      · obtain ⟨rfl, rest2, rfl⟩ := hgt
        have e1 : scanQ ('>' :: '>' :: rest2) sq dq = scanQ ('>' :: rest2) sq dq :=
          scanQ_cons_other _ _ _ _ (by decide) (by decide) (by decide)
        have e2 : scanQ ('>' :: rest2) sq dq = scanQ rest2 sq dq :=
          scanQ_cons_other _ _ _ _ (by decide) (by decide) (by decide)
        have hq1 : (scanQ ('>' :: rest2) sq dq).2 = false := by rw [e1] at hq; exact hq
        have hq2 : (scanQ rest2 sq dq).2 = false := by rw [e2] at hq1; exact hq1
        have hlen2 : rest2.length ≤ n := by simp at hlen; omega
        have hlen1 : ('>' :: rest2).length ≤ n := by simp at hlen ⊢; omega
        show tokenizeAux ('>' :: '>' :: (rest2 ++ ['\''])) sq dq cur toks
            = tokenizeAux ('>' :: '>' :: rest2) sq dq cur toks
        rw [tokenizeAux.eq_2, tokenizeAux.eq_2]
        by_cases hb : ¬sq = true ∧ ¬dq = true
        · rw [if_pos hb, if_pos hb]
          exact ih rest2 hlen2 sq dq [] _ hq2
        · rw [if_neg hb, if_neg hb]
          exact ih ('>' :: rest2) hlen1 sq dq (cur ++ ['>']) toks hq1
      · have dR : ∀ rest2 : List Char, c = '>' → rest = '>' :: rest2 → False := by
          intro rest2 hc hr
          exact hgt ⟨hc, rest2, hr⟩
        have dL : ∀ rest2 : List Char, c = '>' → rest ++ ['\''] = '>' :: rest2 → False := by
          intro rest2 hc hr
          rcases rest with _ | ⟨x, r⟩
          · simp at hr
          · simp at hr
            exact hgt ⟨hc, r, by rw [hr.1]⟩
        have hlen2 : rest.length ≤ n := by simp at hlen; omega
        rw [scanQ_cons] at hq
        show tokenizeAux (c :: (rest ++ ['\''])) sq dq cur toks
            = tokenizeAux (c :: rest) sq dq cur toks
        rw [tokenizeAux.eq_3 _ _ _ _ _ _ dL, tokenizeAux.eq_3 _ _ _ _ _ _ dR]
        by_cases h1 : isCSpace c = true ∧ ¬sq = true ∧ ¬dq = true
        · rw [if_pos h1, if_pos h1]
          rw [if_pos h1] at hq
          exact ih rest hlen2 sq dq [] _ hq
        · rw [if_neg h1, if_neg h1]
          rw [if_neg h1] at hq
          by_cases h2 : c = '\'' ∧ ¬dq = true
          · rw [if_pos h2, if_pos h2]
            rw [if_pos h2] at hq
            exact ih rest hlen2 _ dq cur toks hq
          · rw [if_neg h2, if_neg h2]
            rw [if_neg h2] at hq
            by_cases h3 : c = '"' ∧ ¬sq = true
            · rw [if_pos h3, if_pos h3]
              rw [if_pos h3] at hq
              exact ih rest hlen2 sq _ cur toks hq
            · rw [if_neg h3, if_neg h3]
              rw [if_neg h3] at hq
              by_cases h4 : (c = '|' ∨ c = '>' ∨ c = '<' ∨ c = '&') ∧ ¬sq = true ∧ ¬dq = true
              · rw [if_pos h4, if_pos h4]
                exact ih rest hlen2 sq dq [] _ hq
              · rw [if_neg h4, if_neg h4]
                exact ih rest hlen2 sq dq (cur ++ [c]) toks hq

end MiniShell

open MiniShell

/-- C1 counterexample: the claim says a SIGCHLD delivery leaves every
component of the shell state unchanged except a dirty flag.  In the code the
handler itself reaps: delivering one SIGCHLD while job 1 (pgid 100, Running)
has a stopped child rewrites the job table, changing job 1's state to
STOPPED. -/
theorem sigchld_handler_mutates_job_table :
    (sigchld_handler ⟨[⟨1, 100, "sleep 5", .RUNNING⟩], 2⟩ [⟨100, .wstopped⟩] 0).1.jobs
        = [⟨1, 100, "sleep 5", .STOPPED⟩]
    ∧ (sigchld_handler ⟨[⟨1, 100, "sleep 5", .RUNNING⟩], 2⟩ [⟨100, .wstopped⟩] 0).1.jobs
        ≠ [⟨1, 100, "sleep 5", .RUNNING⟩] := by
  constructor
  · decide
  · decide

/-- C1 (corrected): `sigchld_handler` does reap inside the handler — a
`waitpid(WNOHANG | WUNTRACED | WCONTINUED)` loop that rewrites job states in
the job table.  What does hold is a frame property: for every delivery, the
handler restores `errno`, never touches `next_job_id`, and preserves every
job's identity (id, pgid, command line) — only `state` fields change, and no
job is added or removed. -/
theorem sigchld_handler_frame (s : ShellSt) (events : List ChildEvent) (errno : Int) :
    (sigchld_handler s events errno).2 = errno
    ∧ (sigchld_handler s events errno).1.next_job_id = s.next_job_id
    ∧ (sigchld_handler s events errno).1.jobs.map jobSkel = s.jobs.map jobSkel :=
  ⟨rfl, rfl, skel_sigchld_foldl events s.jobs⟩

/-- C2 counterexample: a job that reached Done and sits in the table is
removed by the `jobs` built-in (`remove_done_jobs` runs before `print_jobs`)
with zero Done announcements — not exactly one — and is afterwards absent
from the table. -/
theorem jobs_builtin_drops_done_without_announcement :
    (handle_builtin ["jobs"] none true none [⟨1, 100, "sleep 1", .DONE⟩]).out = []
    ∧ (handle_builtin ["jobs"] none true none [⟨1, 100, "sleep 1", .DONE⟩]).out.count
        (doneLine ⟨1, 100, "sleep 1", .DONE⟩) = 0
    ∧ (handle_builtin ["jobs"] none true none [⟨1, 100, "sleep 1", .DONE⟩]).jobs = [] := by
  refine ⟨by decide, by decide, by decide⟩

/-- C3 (code bug): on the single-command line `cd /tmp > out` the parser
yields the one-command pipeline with an output redirection, and `main` takes
the fork path — `handle_builtin` is never consulted when a redirection is
present — while the same command without redirection is dispatched in-shell.
The spec requires `cd` to be dispatched before forking even with redirection,
because a forked `cd` cannot change the shell's directory. -/
theorem cd_with_redirection_takes_fork_path :
    parse_pipeline (tokenize "cd /tmp > out")
        = some ([⟨["cd", "/tmp"], "", "out", false⟩], false)
    ∧ mainDispatch [⟨["cd", "/tmp"], "", "out", false⟩] none true none [] = .forkPath
    ∧ mainDispatch [⟨["cd", "/tmp"], "", "", false⟩] none true none [] = .inShell := by
  refine ⟨by decide, by decide, by decide⟩

/-- C4 counterexample: `cd` with no argument while `HOME` is unset passes the
null pointer of `getenv("HOME")` straight to `chdir` — it does not change to
`/`; the call fails (EFAULT) and `perror("cd")` reports it. -/
theorem cd_home_unset_goes_nowhere :
    (handle_builtin ["cd"] none true none []).chdirArg = some none
    ∧ some (none : Option String) ≠ some (some "/")
    ∧ (handle_builtin ["cd"] none true none []).errs = [.perrorCd]
    ∧ (handle_builtin ["cd"] none true none []).res = .ret true := by
  refine ⟨by decide, by decide, by decide, by decide⟩

/-- C5 counterexample: a line with an unmatched single quote (`echo 'abc`) —
and likewise an unmatched double quote — is not rejected: `tokenize` returns
a perfectly ordinary token sequence (the quote is dropped) and
`parse_pipeline` accepts it, so no parse error ever reaches the user. -/
theorem unmatched_quote_accepted :
    tokenize "echo 'abc" = ["echo", "abc"]
    ∧ parse_pipeline (tokenize "echo 'abc") = some ([⟨["echo", "abc"], "", "", false⟩], false)
    ∧ tokenize "echo \"abc" = ["echo", "abc"]
    ∧ parse_pipeline (tokenize "echo \"abc") = some ([⟨["echo", "abc"], "", "", false⟩], false) := by
  refine ⟨by decide, by decide, by decide, by decide⟩

/-- C6 counterexample: the token sequence of the line `cmd |` ends in the
pipe token, yet `parse_pipeline` succeeds, returning the one-command pipeline
`cmd` — the empty command after the `|` is silently dropped at end of input,
so no parse error is reported. -/
theorem trailing_pipe_no_parse_error :
    tokenize "cmd |" = ["cmd", "|"]
    ∧ parse_pipeline ["cmd", "|"] = some ([⟨["cmd"], "", "", false⟩], false) := by
  refine ⟨by decide, by decide⟩

/-- C7 counterexample: a leading `&` (line `& cmd`) does not make the parse
fail; the non-final `&` is treated as an ordinary word and becomes
`argv[0]`. -/
theorem leading_ampersand_no_parse_error :
    tokenize "& cmd" = ["&", "cmd"]
    ∧ parse_pipeline ["&", "cmd"] = some ([⟨["&", "cmd"], "", "", false⟩], false) := by
  refine ⟨by decide, by decide⟩

/-- C8 (confirmed): the `jobs` built-in is idempotent over observation.
Running `jobs` (which first removes Done jobs, then prints) and running it
again on the resulting table with no intervening state change prints exactly
the same lines, because `remove_done_jobs` is an idempotent filter. -/
theorem jobs_builtin_idempotent_output (js : List Job) (home : Option String)
    (chdirOk : Bool) (fgw : Option Bool) :
    (handle_builtin ["jobs"] home chdirOk fgw
        ((handle_builtin ["jobs"] home chdirOk fgw js).jobs)).out
      = (handle_builtin ["jobs"] home chdirOk fgw js).out := by
  simp [handle_builtin, remove_done_jobs, List.filter_filter]

/-- C10 (code bug): `fg %abc` strips the `%` and hands `abc` to `std::stoi`,
which cannot consume any digit and therefore throws `std::invalid_argument`;
`handle_builtin` has no handler for it, so the exception escapes and the
shell process is terminated instead of printing a diagnostic. -/
theorem fg_nonnumeric_jobspec_aborts :
    stoi "abc" = .error .invalid_argument
    ∧ (handle_builtin ["fg", "%abc"] none true none []).res = .crashed .invalid_argument
    ∧ (handle_builtin ["fg", "%abc"] none true none []).errs = []
    ∧ (handle_builtin ["bg", "%"] none true none []).res = .crashed .invalid_argument := by
  refine ⟨by decide, by decide, by decide, by decide⟩

/-- C2 (corrected): exactly-once Done announcement holds only on the REPL
drain path.  When the job ids in the table are distinct, a Done job appears
exactly once in the list of jobs the drain announces (the drain's output is
the Done-filtered table mapped through `doneLine`) and is afterwards absent
(no surviving job carries its id).  The `jobs` built-in, however, removes
Done jobs *before* printing — its resulting table equals the drain's and
retains no Done job — so that path announces a removed Done job zero times,
not once. -/
theorem drain_announces_done_exactly_once (js : List Job) (j : Job)
    (hnd : (js.map Job.id).Nodup) (hj : j ∈ js) (hd : j.state = .DONE) :
    (js.filter (fun x => x.state = .DONE)).count j = 1
    ∧ (replDrain js).2 = (js.filter (fun x => x.state = .DONE)).map doneLine
    ∧ (∀ x ∈ (replDrain js).1, x.id ≠ j.id)
    ∧ (handle_builtin ["jobs"] none true none js).jobs = (replDrain js).1
    ∧ ∀ x ∈ (handle_builtin ["jobs"] none true none js).jobs, ¬ x.state = .DONE := by
  have hnodup : js.Nodup := List.Nodup.of_map _ hnd
  refine ⟨?_, rfl, ?_, ?_, ?_⟩
  · have hmem : j ∈ js.filter (fun x => x.state = .DONE) :=
      List.mem_filter.mpr ⟨hj, by simp [hd]⟩
    exact List.count_eq_one_of_mem (hnodup.filter _) hmem
  · intro x hx hxid
    have hx2 : x ∈ js ∧ ¬ x.state = .DONE := by
      simpa [replDrain, remove_done_jobs] using hx
    have hxj : x = j := List.inj_on_of_nodup_map hnd hx2.1 hj hxid
    exact hx2.2 (hxj ▸ hd)
  · rfl
  · intro x hx
    have hx2 : x ∈ js ∧ ¬ x.state = .DONE := by
      simpa [handle_builtin, remove_done_jobs] using hx
    exact hx2.2

/-- C2 witness: the amended theorem applied to a one-job table holding a Done
job — on the drain path that job is announced exactly once. -/
theorem drain_announces_done_exactly_once_wit :
    ([(⟨1, 100, "sleep 1", .DONE⟩ : Job)].filter (fun x => x.state = .DONE)).count
        ⟨1, 100, "sleep 1", .DONE⟩ = 1 :=
  (drain_announces_done_exactly_once [⟨1, 100, "sleep 1", .DONE⟩] ⟨1, 100, "sleep 1", .DONE⟩
    (by decide) (by decide) (by decide)).1

/-- C4 (corrected): the `cd` built-in always returns normally (never exits
the shell) and passes `chdir` its first argument when one is given, else
`getenv("HOME")` verbatim — so with no argument and `HOME` unset the pointer
handed to `chdir` is null (not `/`), the call fails, and `perror("cd")`
reports the error. -/
theorem cd_chdir_target (argv : List String) (home : Option String) (chdirOk : Bool)
    (fgw : Option Bool) (js : List Job) (h : argv.headD "" = "cd") (hne : argv ≠ []) :
    (handle_builtin argv home chdirOk fgw js).res = .ret true
    ∧ (handle_builtin argv home chdirOk fgw js).chdirArg
        = some (if 2 ≤ argv.length then some (argv.getD 1 "") else home)
    ∧ ((if 2 ≤ argv.length then some (argv.getD 1 "") else home) = none
        → (handle_builtin argv home chdirOk fgw js).errs = [Diag.perrorCd]) := by
  match argv, hne with
  | c :: rest, _ =>
    simp only [List.headD_cons] at h
    subst h
    refine ⟨?_, ?_, ?_⟩ <;> simp [handle_builtin]
    intro hnone
    simp [hnone]

/-- C4 witness: `cd` with no argument and `HOME` set chdirs to `$HOME` and
returns normally. -/
theorem cd_chdir_target_wit :
    (handle_builtin ["cd"] (some "/root") true none []).chdirArg = some (some "/root") :=
  (cd_chdir_target ["cd"] (some "/root") true none [] (by decide) (by decide)).2.1

/-- C5 (corrected): unterminated quoting is not an error — the tokenizer is
total and an unmatched single quote merely quotes the rest of the line: for
every line whose character scan ends outside a double-quoted region,
appending the closing quote does not change the token sequence at all, so
the unmatched variant tokenizes exactly like the matched one and no parse
error is ever produced for it. -/
theorem tokenize_unmatched_squote_harmless (l : String)
    (h : (scanQ l.toList false false).2 = false) :
    tokenize (l ++ "'") = tokenize l := by
  unfold tokenize
  have hl : (l ++ "'").toList = l.toList ++ ['\''] := by
    simp [String.toList, String.data_append]
  rw [hl, tokenizeAux_append_squote l.toList.length l.toList le_rfl false false [] [] h]

/-- C5 witness: the line `echo 'abc` has an unmatched quote (its scan ends
with the single-quote flag set, double-quote flag clear), and closing the
quote changes nothing. -/
theorem tokenize_unmatched_squote_harmless_wit :
    (scanQ "echo 'abc".toList false false).2 = false
    ∧ tokenize ("echo 'abc" ++ "'") = tokenize "echo 'abc" :=
  ⟨by decide, tokenize_unmatched_squote_harmless "echo 'abc" (by decide)⟩

/-- C6 (corrected): a token sequence ending in `|` is not rejected.  For any
ordinary word `w`, parsing `w |` succeeds and yields the one-command pipeline
`[w]`: the `|` pushes the first command and the empty command left at end of
input is silently dropped, so no parse error results. -/
theorem trailing_pipe_accepted (w : String) (h1 : w ≠ "|") (h2 : w ≠ "<")
    (h3 : w ≠ ">") (h4 : w ≠ ">>") (h5 : w ≠ "&") :
    parse_pipeline [w, "|"] = some ([⟨[w], "", "", false⟩], false) := by
  simp [parse_pipeline, parsePL, h1, h2, h3, h4, h5, Command.empty]

/-- C6 witness: `ls |` parses to the single-command pipeline `ls`. -/
theorem trailing_pipe_accepted_wit :
    parse_pipeline ["ls", "|"] = some ([⟨["ls"], "", "", false⟩], false) :=
  trailing_pipe_accepted "ls" (by decide) (by decide) (by decide) (by decide) (by decide)

/-- C7 (corrected): `&` sets the background flag only when it is the final
token; a non-final `&` is not a parse error but is treated as an ordinary
word and appended to the current command's argv. -/
theorem ampersand_background_only_when_final (w : String) (h1 : w ≠ "|") (h2 : w ≠ "<")
    (h3 : w ≠ ">") (h4 : w ≠ ">>") (h5 : w ≠ "&") :
    parse_pipeline [w, "&"] = some ([⟨[w], "", "", false⟩], true)
    ∧ parse_pipeline ["&", w] = some ([⟨["&", w], "", "", false⟩], false) := by
  constructor <;> simp [parse_pipeline, parsePL, h1, h2, h3, h4, h5, Command.empty]

/-- C7 witness: `sleep &` is a background job; `& sleep` parses with `&` as
`argv[0]`. -/
theorem ampersand_background_only_when_final_wit :
    parse_pipeline ["sleep", "&"] = some ([⟨["sleep"], "", "", false⟩], true) :=
  (ampersand_background_only_when_final "sleep" (by decide) (by decide) (by decide)
    (by decide) (by decide)).1

/-- C9 (confirmed): in every reachable shell state the job table is sorted in
strictly increasing id order and every id is below `next_job_id` (so `add_job`
always appends a strictly larger id), and since `remove_done_jobs` and the
Done filter of the REPL drain preserve relative order, both `print_jobs`
after a `jobs` built-in and the drain's Done announcements emit jobs in
ascending id order. -/
theorem job_table_sorted_by_id (s : ShellSt) (h : Reach s) :
    List.Pairwise (· < ·) (s.jobs.map Job.id)
    ∧ (∀ j ∈ s.jobs, j.id < s.next_job_id)
    ∧ List.Pairwise (· < ·) ((remove_done_jobs s.jobs).map Job.id)
    ∧ List.Pairwise (· < ·) ((s.jobs.filter (fun j => j.state = .DONE)).map Job.id) := by
  have key : List.Pairwise (· < ·) (s.jobs.map Job.id)
      ∧ ∀ j ∈ s.jobs, j.id < s.next_job_id := by
    induction h with
    | init => simp
    | addJob s2 pgid cmd st _ ih =>
      obtain ⟨hp, hb⟩ := ih
      constructor
      · simp only [add_job, List.map_append, List.map_cons, List.map_nil]
        rw [List.pairwise_append]
        refine ⟨hp, by simp, ?_⟩
        intro a ha b hbb
        simp only [List.mem_cons, List.not_mem_nil, or_false] at hbb
        subst hbb
        obtain ⟨ja, hja, rfl⟩ := List.mem_map.mp ha
        exact hb ja hja
      · intro j hj
        simp only [add_job, List.mem_append, List.mem_singleton] at hj
        simp only [add_job]
        rcases hj with hj | rfl
        · have := hb j hj
          omega
        · simp
    | removeDone s2 _ ih =>
      obtain ⟨hp, hb⟩ := ih
      refine ⟨List.Pairwise.sublist ((List.filter_sublist _).map _) hp, ?_⟩
      intro j hj
      exact hb j (List.mem_of_mem_filter hj)
    | setState s2 i st _ ih =>
      obtain ⟨hp, hb⟩ := ih
      refine ⟨?_, ?_⟩
      · show List.Pairwise (· < ·) ((setJobStateAt s2.jobs i st).map Job.id)
        rw [ids_setJobStateAt]
        exact hp
      · intro j hj
        have hm : j.id ∈ (setJobStateAt s2.jobs i st).map Job.id :=
          List.mem_map_of_mem _ hj
        rw [ids_setJobStateAt] at hm
        obtain ⟨j2, hj2, hid⟩ := List.mem_map.mp hm
        rw [← hid]
        exact hb j2 hj2
  obtain ⟨hp, hb⟩ := key
  exact ⟨hp, hb, List.Pairwise.sublist ((List.filter_sublist _).map _) hp,
    List.Pairwise.sublist ((List.filter_sublist _).map _) hp⟩

/-- C9 witness: after launching two background jobs from the initial state
the table's ids are strictly ascending. -/
theorem job_table_sorted_by_id_witness :
    List.Pairwise (· < ·)
      (((add_job (add_job ⟨[], 1⟩ 100 "sleep 5 &" .RUNNING) 200 "cat &" .RUNNING).jobs).map
        Job.id) :=
  (job_table_sorted_by_id _ (Reach.addJob _ _ _ _ (Reach.addJob _ _ _ _ Reach.init))).1
